import Mathlib

/-!
Verification of the etcd-backed gRPC service registry (`registry/registry.go`).

The Go code is shallowly embedded: the etcd store is modelled as explicit
state (key/value entries, granted leases), fallible store operations take
injected fault flags, goroutines become explicit traces of inputs consumed
by the loop bodies, and callback invocations are collected as lists.
-/

set_option autoImplicit false

/-- `ServiceInfo` from registry.go: one running instance of a service
(`Name`, `Address`, `Version`, all strings, JSON-tagged `name`, `address`,
`version`). -/
structure ServiceInfo where
  name : String
  address : String
  version : String
deriving DecidableEq

/-- A stored byte payload, abstracted: either a JSON object of string
fields (what `json.Marshal` of a `ServiceInfo` produces; field order kept
but irrelevant to decoding) or a malformed payload that `json.Unmarshal`
rejects. -/
inductive Payload where
  | record (fields : List (String × String))
  | malformed
deriving DecidableEq

/-- `json.Marshal(&ServiceInfo{...})`: a JSON object with the three tagged
fields. Marshalling a struct of plain strings cannot fail in Go. -/
def marshal (s : ServiceInfo) : Payload :=
  .record [("name", s.name), ("address", s.address), ("version", s.version)]

/-- Field lookup as `json.Unmarshal` performs it: a missing field leaves the
zero value `""`. -/
def lookupField (fields : List (String × String)) (k : String) : String :=
  match fields.lookup k with
  | some v => v
  | none => ""

/-- `json.Unmarshal(kv.Value, &service)`: succeeds on any JSON object,
filling absent fields with `""`; fails on a malformed payload. -/
def unmarshal : Payload → Option ServiceInfo
  | .record fs =>
      some ⟨lookupField fs "name", lookupField fs "address", lookupField fs "version"⟩
  | .malformed => none

/-- One key/value entry in the etcd store, with the lease it is attached to. -/
structure KV where
  key : String
  value : Payload
  leaseId : Nat
deriving DecidableEq

/-- The etcd store state visible to this registry: the kv entries and the
granted leases (`nextLease` is the id the next `Grant` returns). -/
structure Store where
  kvs : List KV
  leases : List Nat
  nextLease : Nat
deriving DecidableEq

/-- The registry-side state: the store plus the set of lease ids for which a
`keepAlive` background goroutine has been started. -/
structure RegistryState where
  store : Store
  keepAliveTasks : List Nat
deriving DecidableEq

/-- `fmt.Sprintf("/services/%s/%s", serviceName, address)` — the key of one
instance. -/
def keyOf (serviceName address : String) : String :=
  "/services/" ++ serviceName ++ "/" ++ address

/-- `fmt.Sprintf("/services/%s/", serviceName)` — the range-query string of
one service. -/
def pfxOf (serviceName : String) : String :=
  "/services/" ++ serviceName ++ "/"

/-- Whether `key` starts with the string `p` (etcd `WithPrefix` range
membership), computed on the character lists. -/
def hasPfx (key p : String) : Bool :=
  p.data.isPrefixOf key.data

/-- `kv.Put`: overwrite the entry at `key` if present, else append it. -/
def putKV (kvs : List KV) (key : String) (v : Payload) (lid : Nat) : List KV :=
  if kvs.any (fun kv => kv.key == key) then
    kvs.map (fun kv => if kv.key == key then ⟨key, v, lid⟩ else kv)
  else
    kvs ++ [⟨key, v, lid⟩]

/-- Injected store faults for one `Register` call: whether `lease.Grant`
fails and whether `kv.Put` fails. -/
structure Faults where
  grantFails : Bool
  putFails : Bool
deriving DecidableEq

/-- `EtcdRegistry.Register(serviceName, address, version)`.
Steps, exactly as in the source: marshal the record (cannot fail for string
fields); `lease.Grant` (on failure return the error); `kv.Put` of
`keyOf serviceName address` with the lease attached (on failure return the
error); `go r.keepAlive(...)`; return nil. Returns the new state and
`some errorMessage` on failure. -/
def Register (f : Faults) (st : RegistryState) (serviceName address version : String) :
    RegistryState × Option String :=
  let value := marshal ⟨serviceName, address, version⟩
  if f.grantFails then
    (st, some "grant error")
  else
    let leaseId := st.store.nextLease
    let st1 : RegistryState :=
      { st with store := { st.store with
          leases := st.store.leases ++ [leaseId],
          nextLease := leaseId + 1 } }
    if f.putFails then
      (st1, some "put error")
    else
      let st2 : RegistryState :=
        { st1 with store := { st1.store with
            kvs := putKV st1.store.kvs (keyOf serviceName address) value leaseId } }
      ({ st2 with keepAliveTasks := st2.keepAliveTasks ++ [leaseId] }, none)

/-- The pure read performed by `EtcdRegistry.Discover(serviceName)`: range
over `pfxOf serviceName`, decode each value, and skip (`continue`) every
entry whose decode fails. -/
def Discover (st : Store) (serviceName : String) : List ServiceInfo :=
  (st.kvs.filter (fun kv => hasPfx kv.key (pfxOf serviceName))).filterMap
    (fun kv => unmarshal kv.value)

/-- `EtcdRegistry.Discover` with its fallible `kv.Get`: a store/network
failure of the range read is returned to the caller; otherwise the decoded
records. -/
def DiscoverR (getFails : Bool) (st : Store) (serviceName : String) :
    Except String (List ServiceInfo) :=
  if getFails then .error "get error" else .ok (Discover st serviceName)

/-- One input consumed by the `keepAlive` select loop: the context being
cancelled, or a receive on the keepalive channel (`none` models the nil
response sent when the lease has expired). -/
inductive KAInput where
  | ctxDone
  | ack (resp : Option Nat)
deriving DecidableEq

/-- Why the `keepAlive` loop returned. -/
inductive KAExit where
  | ctxCancelled
  | leaseExpired
  | streamOpenFailed
deriving DecidableEq

/-- What a run of the `keepAlive` goroutine did: why it exited (`none` if the
supplied trace ran out while it was still looping), how many `Register`
calls it made and how many store writes it issued. -/
structure KAResult where
  exit : Option KAExit
  registerCalls : Nat
  storeWrites : Nat
deriving DecidableEq

/-- The `for { select ... } }` loop of `EtcdRegistry.keepAlive`, after the
keepalive stream has been opened: `<-r.ctx.Done()` returns; a nil response
prints the lease-expired notice and returns (the re-register comment has no
code after it); a non-nil response loops. The loop body issues no store
write and no `Register` call. -/
def kaLoop : List KAInput → KAResult
  | [] => { exit := none, registerCalls := 0, storeWrites := 0 }
  | .ctxDone :: _ => { exit := some .ctxCancelled, registerCalls := 0, storeWrites := 0 }
  | .ack none :: _ => { exit := some .leaseExpired, registerCalls := 0, storeWrites := 0 }
  | .ack (some _) :: rest => kaLoop rest

/-- `EtcdRegistry.keepAlive`: `lease.KeepAlive` may fail to open the renewal
stream, in which case the goroutine prints the error and returns before the
loop starts; otherwise it runs `kaLoop` over the received inputs. -/
def keepAlive (openFails : Bool) (inputs : List KAInput) : KAResult :=
  if openFails then
    { exit := some .streamOpenFailed, registerCalls := 0, storeWrites := 0 }
  else kaLoop inputs

/-- The type of a watch event, `event.Type`: a put or a delete. -/
inductive EventType where
  | put
  | del
deriving DecidableEq

/-- One change event received on the watch channel: its type and key. The
loop only prints them; the payload is never consulted. -/
structure WEvent where
  type : EventType
  key : String
deriving DecidableEq

/-- One event of a watch response as observed by the goroutine's loop body:
the event itself, the store contents at the moment the loop re-runs
`Discover` for it, and whether that `Discover`'s range read fails. -/
structure EventObs where
  ev : WEvent
  store : Store
  getFails : Bool
deriving DecidableEq

/-- One input consumed by the watch goroutine's select loop: the context
being cancelled, or a watch response carrying a batch of events. -/
inductive WatchInput where
  | ctxDone
  | batch (events : List EventObs)
deriving DecidableEq

/-- The `for _, event := range watchResp.Events` body of `Watch`: for each
event, re-run `Discover`; if it returns no error, invoke the callback with
the result. Returns the list of snapshots delivered for the batch, in
order. -/
def processBatch (serviceName : String) (events : List EventObs) :
    List (List ServiceInfo) :=
  events.filterMap (fun e => (DiscoverR e.getFails e.store serviceName).toOption)

/-- The watch goroutine's `for { select ... } }` loop: exit on context
cancellation, otherwise process each received batch with `processBatch`.
Returns every snapshot delivered to the callback, in delivery order. -/
def bgLoop (serviceName : String) : List WatchInput → List (List ServiceInfo)
  | [] => []
  | .ctxDone :: _ => []
  | .batch events :: rest => processBatch serviceName events ++ bgLoop serviceName rest

/-- The synchronous outcome of one `EtcdRegistry.Watch(serviceName, callback)`
call: the returned error, the callback invocations made before `Watch`
returned (in order), and whether the watch goroutine was spawned. -/
structure WatchResult where
  error : Option String
  syncCalls : List (List ServiceInfo)
  bgStarted : Bool
deriving DecidableEq

/-- The synchronous part of `EtcdRegistry.Watch`: the goroutine is spawned
first (unconditionally); then `Discover` runs once — on error `Watch`
returns it without calling the callback, otherwise the callback is invoked
with the result and `Watch` returns nil. -/
def Watch (getFails : Bool) (st : Store) (serviceName : String) : WatchResult :=
  match DiscoverR getFails st serviceName with
  | .error e => { error := some e, syncCalls := [], bgStarted := true }
  | .ok services => { error := none, syncCalls := [services], bgStarted := true }

/-- A callback invocation, tagged by which part of `Watch` issued it: the
synchronous initial snapshot, or an event-triggered snapshot from the
goroutine. -/
inductive CbCall where
  | initial (snap : List ServiceInfo)
  | eventTriggered (snap : List ServiceInfo)
deriving DecidableEq

/-- All ways to place one element into a sequence, keeping the sequence's
own order. -/
def insertions {α : Type} (a : α) : List α → List (List α)
  | [] => [[a]]
  | y :: ys => (a :: y :: ys) :: (insertions a ys).map (fun t => y :: t)

/-- The callback-invocation orders one `Watch` call can produce: the
goroutine is spawned before the initial `Discover`, and Go gives no
ordering between the goroutine's deliveries and the foreground, so the
single initial invocation may fall anywhere among the event-triggered
ones; only the order within the goroutine's own deliveries is fixed. -/
def possibleCallSequences (st : Store) (serviceName : String)
    (inputs : List WatchInput) : List (List CbCall) :=
  insertions (CbCall.initial (Discover st serviceName))
    ((bgLoop serviceName inputs).map CbCall.eventTriggered)

/-- The state of one `Build`-produced resolver and its surroundings: the
registry-wide context flag (`r.ctx`) and the address lists pushed to the
`resolver.ClientConn` via `UpdateState`, in order. -/
structure ResolverSystem where
  ctxCancelled : Bool
  ccUpdates : List (List String)
deriving DecidableEq

/-- The callback `Build` registers: keep only each service's `Address`. -/
def toAddrs (snap : List ServiceInfo) : List String :=
  snap.map (fun s => s.address)

/-- One watch response processed by the goroutine behind a `Build`
subscription: if the registry context is cancelled the goroutine has
returned and nothing is delivered; otherwise every snapshot the batch
produces is pushed to the connection as an address list. -/
def resolverBgBatch (sys : ResolverSystem) (serviceName : String)
    (events : List EventObs) : ResolverSystem :=
  if sys.ctxCancelled then sys
  else { sys with
    ccUpdates := sys.ccUpdates ++ (processBatch serviceName events).map toAddrs }

/-- `etcdResolver.Close`: the body is empty — it changes nothing. -/
def resolverClose (sys : ResolverSystem) : ResolverSystem := sys

/-- `EtcdRegistry.Close`: `r.cancel()` — cancels the registry-wide context
every background goroutine selects on. -/
def registryClose (sys : ResolverSystem) : ResolverSystem :=
  { sys with ctxCancelled := true }

/-- The empty store. -/
def st0 : Store := ⟨[], [], 0⟩

/-- A registry over the empty store with no keepalive goroutine running. -/
def regState0 : RegistryState := ⟨st0, []⟩

/-- A concrete instance of service `auth`. -/
def infoA : ServiceInfo := ⟨"auth", "1.1.1.1:1", "v1"⟩

/-- A second concrete instance of service `auth`. -/
def infoB : ServiceInfo := ⟨"auth", "2.2.2.2:2", "v2"⟩

/-- A store holding only `infoA`, registered under its derived key. -/
def storeA : Store := ⟨[⟨keyOf "auth" "1.1.1.1:1", marshal infoA, 1⟩], [1], 2⟩

/-- A store holding `infoA` and `infoB`. -/
def storeAB : Store :=
  ⟨[⟨keyOf "auth" "1.1.1.1:1", marshal infoA, 1⟩,
    ⟨keyOf "auth" "2.2.2.2:2", marshal infoB, 2⟩], [1, 2], 3⟩

/-- A put event on `infoA`'s key. -/
def evPutA : WEvent := ⟨.put, keyOf "auth" "1.1.1.1:1"⟩

/-- A put event on `infoB`'s key. -/
def evPutB : WEvent := ⟨.put, keyOf "auth" "2.2.2.2:2"⟩

/-- One watch response carrying a batch of two put events, both observed
with the store at `storeAB` and with no range-read failure. -/
def batchTwo : List EventObs :=
  [⟨evPutA, storeAB, false⟩, ⟨evPutB, storeAB, false⟩]

/-- A batch of a single put event observed at `storeAB`, no failure. -/
def batchOne : List EventObs := [⟨evPutB, storeAB, false⟩]

/-- An entry stored under service `auth`'s key space whose payload decodes
to a record naming a different service and a different address. -/
def kvMismatch : KV :=
  ⟨keyOf "auth" "1.1.1.1:1",
   Payload.record [("name", "other"), ("address", "2.2.2.2:2"), ("version", "v9")], 5⟩

/-- A store containing only the mismatching entry. -/
def storeMismatch : Store := ⟨[kvMismatch], [5], 6⟩

/-- Filtering out the entries whose payload does not decode changes neither
the entries a filter keeps nor the records the final decode pass yields. -/
theorem filterMap_unmarshal_wellformed (p : KV → Bool) :
    ∀ kvs : List KV,
      ((kvs.filter (fun kv => p kv && (unmarshal kv.value).isSome)).filterMap
          (fun kv => unmarshal kv.value)) =
        ((kvs.filter p).filterMap (fun kv => unmarshal kv.value)) := by
  intro kvs
  induction kvs with
  | nil => rfl
  | cons kv rest ih =>
    cases hw : unmarshal kv.value with
    | none => cases hp : p kv <;>
        simp [List.filter_cons, List.filterMap_cons, hw, hp, ih]
    | some s => cases hp : p kv <;>
        simp [List.filter_cons, List.filterMap_cons, hw, hp, ih]

/-- C6: for every `(name, address, version)`, marshalling a `ServiceInfo`
and unmarshalling the resulting payload yields the identical record. -/
theorem marshal_unmarshal_round_trip (n a v : String) :
    unmarshal (marshal ⟨n, a, v⟩) = some ⟨n, a, v⟩ := rfl

/-- C3: whenever `Register` returns an error — the lease grant or the put
failed — no key has been written to the store and no keepalive background
task has been started. -/
theorem register_error_no_key_no_task (f : Faults) (st st' : RegistryState)
    (serviceName address version e : String)
    (h : Register f st serviceName address version = (st', some e)) :
    st'.store.kvs = st.store.kvs ∧ st'.keepAliveTasks = st.keepAliveTasks := by
  rcases f with ⟨gf, pf⟩
  cases gf <;> cases pf <;> simp_all [Register]
  obtain ⟨h1, -⟩ := h
  subst h1
  exact ⟨rfl, rfl⟩

/-- C3 witness: a `Register` call whose lease grant fails returns the error
and leaves the registry state untouched. -/
theorem register_error_no_key_no_task_witness :
    Register ⟨true, false⟩ regState0 "auth" "1.1.1.1:1" "v1" =
      (regState0, some "grant error") ∧
    regState0.store.kvs = regState0.store.kvs ∧
      regState0.keepAliveTasks = regState0.keepAliveTasks :=
  ⟨by decide,
   register_error_no_key_no_task ⟨true, false⟩ regState0 regState0
     "auth" "1.1.1.1:1" "v1" "grant error" (by decide)⟩

/-- C4: if `Watch` returns without error, the callback was invoked exactly
once synchronously before the return, with the snapshot `Discover` produced
at that moment. -/
theorem watch_ok_sync_snapshot (getFails : Bool) (st : Store) (serviceName : String)
    (h : (Watch getFails st serviceName).error = none) :
    (Watch getFails st serviceName).syncCalls = [Discover st serviceName] := by
  cases getFails <;> simp_all [Watch, DiscoverR]

/-- C4 witness: a successful `Watch` over `storeA` delivers exactly the
`Discover` snapshot synchronously. -/
theorem watch_ok_sync_snapshot_witness :
    (Watch false storeA "auth").error = none ∧
    (Watch false storeA "auth").syncCalls = [Discover storeA "auth"] :=
  ⟨by decide, watch_ok_sync_snapshot false storeA "auth" (by decide)⟩

/-- C7: `Discover`'s range read returns its snapshot without an error, and
dropping every entry whose payload does not decode leaves the snapshot
unchanged — malformed entries are skipped, never fatal, and the result is
exactly the decoded well-formed entries. -/
theorem discover_drops_malformed (st : Store) (serviceName : String) :
    DiscoverR false st serviceName = .ok (Discover st serviceName) ∧
    Discover { st with kvs := st.kvs.filter (fun kv => (unmarshal kv.value).isSome) }
        serviceName =
      Discover st serviceName := by
  refine ⟨rfl, ?_⟩
  show ((st.kvs.filter _).filter _).filterMap _ = _
  rw [List.filter_filter]
  exact filterMap_unmarshal_wellformed _ st.kvs

/-- C8: once the renewal stream is open, the keepalive loop exits at the
first nil acknowledgment (lease expiry) and at the first context
cancellation, consuming nothing after it; in the expiry case — as in every
case — it performs no `Register` call and no store write (the re-register
comment in the source has no code after it). -/
theorem keepalive_terminates_no_reregister (pre rest : List KAInput)
    (h : ∀ i ∈ pre, ∃ n, i = KAInput.ack (some n)) :
    kaLoop (pre ++ KAInput.ack none :: rest) =
      { exit := some KAExit.leaseExpired, registerCalls := 0, storeWrites := 0 } ∧
    kaLoop (pre ++ KAInput.ctxDone :: rest) =
      { exit := some KAExit.ctxCancelled, registerCalls := 0, storeWrites := 0 } := by
  induction pre with
  | nil => exact ⟨rfl, rfl⟩
  | cons i pre ih =>
    obtain ⟨n, rfl⟩ := h i (by simp)
    simpa [kaLoop] using ih (fun j hj => h j (by simp [hj]))

/-- C8 witness: after two successful renewals, a nil acknowledgment ends the
loop as expired and a context cancellation ends it as cancelled, each with
no re-registration, even with further inputs pending. -/
theorem keepalive_terminates_no_reregister_witness :
    (∀ i ∈ [KAInput.ack (some 1), KAInput.ack (some 2)], ∃ n, i = KAInput.ack (some n)) ∧
    (kaLoop ([KAInput.ack (some 1), KAInput.ack (some 2)] ++
        KAInput.ack none :: [KAInput.ack (some 3)]) =
      { exit := some KAExit.leaseExpired, registerCalls := 0, storeWrites := 0 } ∧
    kaLoop ([KAInput.ack (some 1), KAInput.ack (some 2)] ++
        KAInput.ctxDone :: [KAInput.ack (some 3)]) =
      { exit := some KAExit.ctxCancelled, registerCalls := 0, storeWrites := 0 }) := by
  refine ⟨?_, ?_⟩
  · intro i hi
    simp only [List.mem_cons, List.not_mem_nil, or_false] at hi
    rcases hi with rfl | rfl
    · exact ⟨1, rfl⟩
    · exact ⟨2, rfl⟩
  · refine keepalive_terminates_no_reregister
      [KAInput.ack (some 1), KAInput.ack (some 2)] [KAInput.ack (some 3)] ?_
    intro i hi
    simp only [List.mem_cons, List.not_mem_nil, or_false] at hi
    rcases hi with rfl | rfl
    · exact ⟨1, rfl⟩
    · exact ⟨2, rfl⟩

/-- C9: when the initial `Discover` inside `Watch` fails, `Watch` returns
the error with no synchronous callback invocation — yet the watch goroutine
was already spawned, and a later event whose re-query succeeds still
delivers a snapshot to the callback. -/
theorem watch_error_bg_still_runs (st st' : Store) (serviceName : String)
    (ev : WEvent) :
    Watch true st serviceName =
      { error := some "get error", syncCalls := [], bgStarted := true } ∧
    bgLoop serviceName [WatchInput.batch [⟨ev, st', false⟩]] =
      [Discover st' serviceName] :=
  ⟨rfl, rfl⟩

/-- C10: `Discover` hands back whatever the payload decodes to, with no
cross-check against the key or the queried name: on `storeMismatch`, whose
only entry sits under service `auth` at address `1.1.1.1:1`, the returned
record names service `other` at address `2.2.2.2:2`. -/
theorem discover_no_crosscheck :
    Discover storeMismatch "auth" = [⟨"other", "2.2.2.2:2", "v9"⟩] ∧
    kvMismatch.key = keyOf "auth" "1.1.1.1:1" ∧
    "other" ≠ "auth" ∧ "2.2.2.2:2" ≠ "1.1.1.1:1" := by decide

/-- C1 counterexample: a single watch response carrying two put events makes
the loop re-run `Discover` and invoke the callback twice — once per event —
not exactly once for the batch. -/
theorem watch_batch_two_events_two_deliveries :
    batchTwo.length = 2 ∧
    bgLoop "auth" [WatchInput.batch batchTwo] = [[infoA, infoB], [infoA, infoB]] ∧
    (bgLoop "auth" [WatchInput.batch batchTwo]).length ≠ 1 := by decide

/-- C1 amended: for every batch none of whose re-queries fails, the loop
delivers one snapshot per put/delete event in the batch — `k` events mean
`k` `Discover` re-runs and `k` callback invocations, not one. -/
theorem watch_delivers_once_per_event (serviceName : String)
    (events : List EventObs) (h : ∀ e ∈ events, e.getFails = false) :
    (processBatch serviceName events).length = events.length := by
  induction events with
  | nil => rfl
  | cons e es ih =>
    have he : e.getFails = false := h e (by simp)
    have ihr := ih (fun x hx => h x (by simp [hx]))
    have hstep : processBatch serviceName (e :: es) =
        Discover e.store serviceName :: processBatch serviceName es := by
      simp only [processBatch, List.filterMap_cons]
      rw [he]
      rfl
    rw [hstep, List.length_cons, ihr, List.length_cons]

/-- C1 amended witness: the two-event batch yields two deliveries. -/
theorem watch_delivers_once_per_event_witness :
    (∀ e ∈ batchTwo, e.getFails = false) ∧
    (processBatch "auth" batchTwo).length = batchTwo.length :=
  ⟨by decide, watch_delivers_once_per_event "auth" batchTwo (by decide)⟩

/-- C2 counterexample: calling `Close` on the resolver returned by `Build`
and then letting the watch goroutine receive one event batch still pushes an
address list to the connection — `Close`'s empty body released nothing. -/
theorem resolver_close_keeps_delivering :
    resolverClose ⟨false, []⟩ = (⟨false, []⟩ : ResolverSystem) ∧
    (resolverBgBatch (resolverClose ⟨false, []⟩) "auth" batchOne).ccUpdates =
      [["1.1.1.1:1", "2.2.2.2:2"]] := by decide

/-- C2 amended: the resolver's `Close` is a no-op — it leaves every state
unchanged — and only cancelling the registry-wide context
(`EtcdRegistry.Close`) stops the subscription's background task from
delivering updates. -/
theorem resolver_close_noop_registry_close_stops (sys : ResolverSystem)
    (serviceName : String) (events : List EventObs) :
    resolverClose sys = sys ∧
    resolverBgBatch (registryClose sys) serviceName events = registryClose sys := by
  exact ⟨rfl, by simp [resolverBgBatch, registryClose]⟩

/-- Placing the element after the whole sequence is one of the insertions. -/
theorem append_singleton_mem_insertions {α : Type} (a : α) :
    ∀ ys : List α, (ys ++ [a]) ∈ insertions a ys := by
  intro ys
  induction ys with
  | nil => simp [insertions]
  | cons y ys ih =>
    simp only [insertions, List.cons_append, List.mem_cons, List.mem_map]
    exact Or.inr ⟨ys ++ [a], ih, rfl⟩

/-- C5 counterexample: with one instance registered and a put event for a
second one pending, the schedule in which the event-triggered snapshot is
delivered before the initial snapshot is among the call sequences `Watch`
can produce — the goroutine is spawned before the initial `Discover`. -/
theorem event_snapshot_can_precede_initial :
    Discover storeA "auth" = [infoA] ∧
    [CbCall.eventTriggered [infoA, infoB], CbCall.initial [infoA]] ∈
      possibleCallSequences storeA "auth" [WatchInput.batch batchOne] := by decide

/-- C5 amended: whenever the goroutine delivers at least one event-triggered
snapshot, some possible schedule delivers its first one before the initial
snapshot: the initial snapshot is only guaranteed to be delivered before
`Watch` returns, not before event-triggered ones. -/
theorem bg_first_schedule_possible (st : Store) (serviceName : String)
    (inputs : List WatchInput) (c : List ServiceInfo) (cs : List (List ServiceInfo))
    (h : bgLoop serviceName inputs = c :: cs) :
    ∃ rest, (CbCall.eventTriggered c :: rest) ∈
        possibleCallSequences st serviceName inputs ∧
      CbCall.initial (Discover st serviceName) ∈ rest := by
  refine ⟨cs.map CbCall.eventTriggered ++ [CbCall.initial (Discover st serviceName)],
    ?_, by simp⟩
  have hm := append_singleton_mem_insertions
    (CbCall.initial (Discover st serviceName))
    ((bgLoop serviceName inputs).map CbCall.eventTriggered)
  rw [possibleCallSequences]
  rw [h] at hm ⊢
  simpa using hm

/-- C5 amended witness: over `storeA` with one pending event batch, the
event-first schedule exists concretely. -/
theorem bg_first_schedule_possible_witness :
    bgLoop "auth" [WatchInput.batch batchOne] = [infoA, infoB] :: [] ∧
    ∃ rest, (CbCall.eventTriggered [infoA, infoB] :: rest) ∈
        possibleCallSequences storeA "auth" [WatchInput.batch batchOne] ∧
      CbCall.initial (Discover storeA "auth") ∈ rest :=
  ⟨by decide,
   bg_first_schedule_possible storeA "auth" [WatchInput.batch batchOne]
     [infoA, infoB] [] (by decide)⟩
